import Mathlib

/- Verification development for the portfolio page
   (src/app/components/Portfolio.jsx).  The definitions below are shallow
   embeddings of the interactive pieces of that file: the Three.js scene
   driver's per-frame update and its connector recomputation, the mount
   and cleanup side effects of the scene effect, the useReveal hook, the
   section tracker callback, the stat counter interval, and the contact
   form submit handler.  JavaScript floating point values are modelled by
   real numbers (positions, angles, opacities) or by rationals where only
   comparisons and exact literals occur (intersection ratios), machine
   integers by Int / Nat. -/

namespace Portfolio

/-- A 3D vector, as held in a mesh's `position` field. -/
structure Vec3 where
  x : ℝ
  y : ℝ
  z : ℝ

/-- Euclidean distance, as computed by `position.distanceTo(other)`. -/
noncomputable def dist3 (a b : Vec3) : ℝ :=
  Real.sqrt ((a.x - b.x) ^ 2 + (a.y - b.y) ^ 2 + (a.z - b.z) ^ 2)

/-- One connector line of the ConnectorSet: the index pair of orbiting
nodes it joins, the two endpoint positions copied into its geometry by
`setFromPoints`, and its material opacity. -/
structure Segment where
  i : ℕ
  j : ℕ
  fromPos : Vec3
  toPos : Vec3
  opacity : ℝ

/-- The body of the nested `nodes.forEach` inside `updateConnections`
(Portfolio.jsx lines 256-270) at one index pair: pairs with `i >= j` are
skipped, and a line is emitted exactly when the Euclidean distance of the
two current node positions is strictly below 3, with opacity
`0.15 * (1 - dist / 3)`. -/
noncomputable def connectionAt (ps : List Vec3) (i j : ℕ) : Option Segment :=
  if i ≥ j then none
  else if dist3 (ps.getD i ⟨0, 0, 0⟩) (ps.getD j ⟨0, 0, 0⟩) < 3 then
    some ⟨i, j, ps.getD i ⟨0, 0, 0⟩, ps.getD j ⟨0, 0, 0⟩,
      0.15 * (1 - dist3 (ps.getD i ⟨0, 0, 0⟩) (ps.getD j ⟨0, 0, 0⟩) / 3)⟩
  else none

/-- `updateConnections` (Portfolio.jsx lines 252-272): every previously
emitted line is removed from the scene and the list is cleared
(`connectionLines.length = 0`) before the double loop over node indices
rebuilds the segment list from the current node positions; the previous
segment list is never read. -/
noncomputable def updateConnections (prev : List Segment) (ps : List Vec3) :
    List Segment :=
  let _ := prev
  (List.range ps.length).flatMap fun i =>
    (List.range ps.length).filterMap fun j => connectionAt ps i j

/-- Static per-node parameters fixed at mount (Portfolio.jsx lines
214-241): orbit radius, base height, angular speed, vertical speed. -/
structure NodeParams where
  radius : ℝ
  yOffset : ℝ
  speed : ℝ
  ySpeed : ℝ

/-- Mutable per-node state: the accumulated orbital angle, the mesh
position, and the accumulated mesh rotation. -/
structure NodeState where
  angle : ℝ
  posX : ℝ
  posY : ℝ
  posZ : ℝ
  rotX : ℝ
  rotY : ℝ

/-- One animation-loop step for one orbiting node (Portfolio.jsx lines
386-393): `node.angle += node.speed * 0.01`, planar position recomputed
from the accumulated angle and the radius, height from
`yOffset + sin(elapsed * ySpeed) * 0.5`, and the mesh rotation
incremented by the fixed amounts 0.02 and 0.03. -/
noncomputable def nodeFrame (elapsed : ℝ) (p : NodeParams) (s : NodeState) :
    NodeState :=
  { angle := s.angle + p.speed * 0.01
    posX := Real.cos (s.angle + p.speed * 0.01) * p.radius
    posZ := Real.sin (s.angle + p.speed * 0.01) * p.radius
    posY := p.yOffset + Real.sin (elapsed * p.ySpeed) * 0.5
    rotX := s.rotX + 0.02
    rotY := s.rotY + 0.03 }

/-- Static per-shape parameters fixed at mount (Portfolio.jsx lines
327-346): initial position, per-axis rotation rates, float speed and
amplitude. -/
structure ShapeParams where
  initialPosX : ℝ
  initialPosY : ℝ
  initialPosZ : ℝ
  rotSpeedX : ℝ
  rotSpeedY : ℝ
  floatSpeed : ℝ
  floatAmp : ℝ

/-- Mutable per-shape state: accumulated rotation and current position. -/
structure ShapeState where
  rotX : ℝ
  rotY : ℝ
  posX : ℝ
  posY : ℝ
  posZ : ℝ

/-- One animation-loop step for one floating shape (Portfolio.jsx lines
404-408): rotation incremented by the per-shape rates, height oscillating
around the initial height as `sin(elapsed * floatSpeed) * floatAmp`. -/
noncomputable def shapeFrame (elapsed : ℝ) (p : ShapeParams) (s : ShapeState) :
    ShapeState :=
  { rotX := s.rotX + p.rotSpeedX
    rotY := s.rotY + p.rotSpeedY
    posX := s.posX
    posZ := s.posZ
    posY := p.initialPosY + Real.sin (elapsed * p.floatSpeed) * p.floatAmp }

/-- The position held in a node's mesh. -/
def nodePos (s : NodeState) : Vec3 := ⟨s.posX, s.posY, s.posZ⟩

/-- The part of the scene the data-model invariant quantifies over:
the orbiting nodes, the floating shapes, and the ConnectorSet. -/
structure SceneState where
  nodes : List (NodeParams × NodeState)
  shapes : List (ShapeParams × ShapeState)
  connections : List Segment

/-- One pass of the `animate` loop body over those objects (Portfolio.jsx
lines 385-398 and 403-408): every node advances by its own rule, then the
ConnectorSet is rebuilt from the just-updated node positions whenever
`Math.floor(elapsed * 10) % 3 === 0`, and every floating shape advances
by its own rule. -/
noncomputable def sceneFrame (elapsed : ℝ) (st : SceneState) : SceneState :=
  let nodes := st.nodes.map fun ps => (ps.1, nodeFrame elapsed ps.1 ps.2)
  { nodes := nodes
    shapes := st.shapes.map fun ps => (ps.1, shapeFrame elapsed ps.1 ps.2)
    connections :=
      if ⌊elapsed * 10⌋ % 3 = 0 then
        updateConnections st.connections (nodes.map fun ps => nodePos ps.2)
      else st.connections }

/-- The theme flag handed to the scene at mount. -/
inductive DisplayMode
  | dark
  | light
deriving DecidableEq

/-- The two window listeners the scene effect registers. -/
inductive ListenerKind
  | mousemove
  | resizeListener
deriving DecidableEq

/-- The slice of browser state the ThreeScene effect touches: window
event listeners, ConnectorSet line resources retained in
`connectionLines`, whether the renderer's canvas is attached to the
container, whether the renderer is live, and whether a frame callback is
scheduled. -/
structure EnvState where
  listeners : List ListenerKind
  lineResources : ℕ
  surfaceAttached : Bool
  rendererAlive : Bool
  frameLoopActive : Bool
deriving DecidableEq

/-- The environment before the scene mounts. -/
def emptyEnv : EnvState := ⟨[], 0, false, false, false⟩

/-- The mount effect's environment side effects (Portfolio.jsx lines
114-432): the renderer is created and its canvas appended, a mousemove
listener and a resize listener are registered on the window, the
animation loop is started, and the first synchronous `animate()` call may
already have populated `connectionLines` with `k` lines. -/
def mountScene (_mode : DisplayMode) (k : ℕ) (env : EnvState) : EnvState :=
  { env with
    listeners := env.listeners ++ [.mousemove, .resizeListener]
    lineResources := env.lineResources + k
    surfaceAttached := true
    rendererAlive := true
    frameLoopActive := true }

/-- The effect's cleanup function (Portfolio.jsx lines 435-445):
`cancelAnimationFrame`, removal of both window listeners, disposal of
every connection line's geometry and material, detachment of the canvas,
and `renderer.dispose()`. -/
def unmountScene (env : EnvState) : EnvState :=
  { env with
    frameLoopActive := false
    listeners := (env.listeners.erase .mousemove).erase .resizeListener
    lineResources := 0
    surfaceAttached := false
    rendererAlive := false }

/-- The `useReveal` observer callback body (Portfolio.jsx line 458):
`if (e.isIntersecting) setVisible(true)`; the flag is never written with
`false` after mount. -/
def revealStep (visible : Bool) (isIntersecting : Bool) : Bool :=
  if isIntersecting then true else visible

/-- One entry of an IntersectionObserver batch, as the section tracker
reads it: the target element id, the intersection flag, and the
intersection ratio. -/
structure SectionEntry where
  targetId : String
  isIntersecting : Bool
  ratio : ℚ
deriving DecidableEq

/-- The test applied to each entry by the section observer callback
(Portfolio.jsx line 770): `e.isIntersecting && e.intersectionRatio > 0.3`.
The comparison against the literal 0.3 is strict. -/
def sectionQualifies (e : SectionEntry) : Bool :=
  e.isIntersecting && decide ((3 : ℚ) / 10 < e.ratio)

/-- The per-entry body of the section observer callback (line 770): a
passing entry overwrites the active section with its target id. -/
def sectionStep (active : String) (e : SectionEntry) : String :=
  if sectionQualifies e then e.targetId else active

/-- `entries.forEach(...)` over one observation batch, in batch order. -/
def processBatch (active : String) (entries : List SectionEntry) : String :=
  entries.foldl sectionStep active

/-- The six observed section ids (Portfolio.jsx line 768). -/
def sectionIds : List String :=
  ["home", "about", "skills", "experience", "projects", "contact"]

/-- `useState("home")` (Portfolio.jsx line 752). -/
def initialActiveSection : String := "home"

/-- `Math.max(1, Math.ceil(value / 40))` (Portfolio.jsx line 600). -/
def statStep (value : ℤ) : ℤ := max 1 ⌈(value : ℚ) / 40⌉

/-- The stat counter's interval state: the accumulator `start`, the
displayed `count`, and whether the interval is still scheduled. -/
structure CounterState where
  start : ℤ
  count : ℤ
  running : Bool
deriving DecidableEq

/-- The state when the counter becomes visible: `let start = 0`,
displayed count 0, interval scheduled. -/
def counterInit : CounterState := ⟨0, 0, true⟩

/-- One 30 ms interval tick (Portfolio.jsx lines 601-605): while the
interval is scheduled, `start += step`; on reaching or passing the target
the display is clamped to the exact target and the interval cleared,
otherwise the display shows the accumulator. -/
def counterTick (value : ℤ) (s : CounterState) : CounterState :=
  if s.running then
    if s.start + statStep value ≥ value then
      ⟨s.start + statStep value, value, false⟩
    else
      ⟨s.start + statStep value, s.start + statStep value, true⟩
  else s

/-- The contact form status (Portfolio.jsx line 783). -/
inductive FormStatus
  | idle
  | sending
  | success
  | error
deriving DecidableEq

/-- The three observable outcomes of the relay call: a response whose
JSON has a truthy `success` field, a response with a falsy `success`
field, and the fetch or the JSON parse throwing. -/
inductive RelayOutcome
  | ok
  | rejected
  | failed
deriving DecidableEq

/-- The three contact form fields (Portfolio.jsx line 753). -/
structure ContactData where
  name : String
  email : String
  message : String
deriving DecidableEq

/-- What one `handleSubmit` invocation does, observably: the sequence of
statuses it sets, the form data it leaves behind, how many outbound
requests it issues, and the delay in milliseconds of the timeout it
schedules to revert the status to idle, if any. -/
structure SubmitResult where
  statusTrace : List FormStatus
  data : ContactData
  requests : ℕ
  revertDelayMs : Option ℕ
deriving DecidableEq

/-- The cleared form written on success: `{ name: "", email: "", message: "" }`. -/
def emptyContactData : ContactData := ⟨"", "", ""⟩

/-- `handleSubmit` (Portfolio.jsx lines 785-818).  A falsy (empty) field
aborts before any status change or request.  Otherwise the status is set
to sending and one POST is issued; a truthy `success` in the response
clears the fields, sets success and schedules idle after 5000 ms, while a
falsy `success` or a thrown error sets error and schedules idle after
4000 ms without touching the fields. -/
def handleSubmit (d : ContactData) (outcome : RelayOutcome) : SubmitResult :=
  if d.name = "" ∨ d.email = "" ∨ d.message = "" then
    ⟨[], d, 0, none⟩
  else
    match outcome with
    | .ok => ⟨[.sending, .success], emptyContactData, 1, some 5000⟩
    | .rejected => ⟨[.sending, .error], d, 1, some 4000⟩
    | .failed => ⟨[.sending, .error], d, 1, some 4000⟩

/-- The scheduled `setTimeout(() => setFormStatus("idle"), ...)` callback:
it only resets the status and does not touch the form data. -/
def revertFire (_st : FormStatus) (d : ContactData) : FormStatus × ContactData :=
  (.idle, d)

/-- The status after a submit attempt that started from `st`: the last
status the handler set, or `st` when it set none. -/
def finalStatus (st : FormStatus) (r : SubmitResult) : FormStatus :=
  r.statusTrace.getLastD st
theorem connectionAt_spec {ps : List Vec3} {i j : ℕ} {s : Segment}
    (h : connectionAt ps i j = some s) :
    i < j ∧ s.i = i ∧ s.j = j ∧
      s.fromPos = ps.getD i ⟨0, 0, 0⟩ ∧ s.toPos = ps.getD j ⟨0, 0, 0⟩ ∧
      dist3 s.fromPos s.toPos < 3 ∧
      s.opacity = 0.15 * (1 - dist3 s.fromPos s.toPos / 3) := by
  unfold connectionAt at h
  split at h
  · exact absurd h (by simp)
  · next hij =>
    split at h
    · next hd =>
      cases h
      refine ⟨by omega, rfl, rfl, rfl, rfl, hd, rfl⟩
    · exact absurd h (by simp)

theorem connectionAt_isSome (ps : List Vec3) (i j : ℕ) :
    (connectionAt ps i j).isSome = true ↔
      i < j ∧ dist3 (ps.getD i ⟨0, 0, 0⟩) (ps.getD j ⟨0, 0, 0⟩) < 3 := by
  unfold connectionAt
  split
  · next hij =>
    simp only [Option.isSome_none, Bool.false_eq_true, false_iff]
    rintro ⟨h1, -⟩
    omega
  · next hij =>
    split
    · next hd =>
      simp only [Option.isSome_some, true_iff]
      exact ⟨by omega, hd⟩
    · next hd =>
      simp only [Option.isSome_none, Bool.false_eq_true, false_iff]
      rintro ⟨-, h2⟩
      exact hd h2

theorem countP_filterMap_connection (ps : List Vec3) (i i0 j0 : ℕ)
    (l : List ℕ) (hnd : l.Nodup) :
    ((l.filterMap fun j => connectionAt ps i j).countP
        fun s => decide (s.i = i0 ∧ s.j = j0))
      = if i = i0 ∧ j0 ∈ l ∧ (connectionAt ps i j0).isSome = true
        then 1 else 0 := by
  induction l with
  | nil => simp
  | cons a t ih =>
    have ihv := ih hnd.of_cons
    have hnotin : a ∉ t := (List.nodup_cons.mp hnd).1
    cases h : connectionAt ps i a with
    | none =>
      rw [List.filterMap_cons_none h, ihv]
      refine if_congr ?_ rfl rfl
      constructor
      · rintro ⟨h1, h2, h3⟩
        exact ⟨h1, List.mem_cons_of_mem _ h2, h3⟩
      · rintro ⟨h1, h2, h3⟩
        rcases List.mem_cons.mp h2 with h2 | h2
        · subst h2
          rw [h] at h3
          simp at h3
        · exact ⟨h1, h2, h3⟩
    | some s =>
      obtain ⟨hij, hsi, hsj, -, -, -, -⟩ := connectionAt_spec h
      rw [List.filterMap_cons_some h, List.countP_cons, ihv]
      by_cases hii : i = i0
      · subst hii
        by_cases hja : j0 = a
        · subst hja
          have h1 : decide (s.i = i ∧ s.j = j0) = true :=
            decide_eq_true ⟨hsi, hsj⟩
          have h2 : ¬(i = i ∧ j0 ∈ t ∧ (connectionAt ps i j0).isSome = true) := by
            rintro ⟨-, hmem, -⟩
            exact hnotin hmem
          rw [if_neg h2, h1]
          simp [h]
        · have h1 : decide (s.i = i ∧ s.j = j0) = false :=
            decide_eq_false fun hh => hja (hh.2.symm.trans hsj)
          rw [h1]
          simp only [Bool.false_eq_true, if_false, Nat.add_zero]
          refine if_congr ?_ rfl rfl
          constructor
          · rintro ⟨hh1, hh2, hh3⟩
            exact ⟨hh1, List.mem_cons_of_mem _ hh2, hh3⟩
          · rintro ⟨hh1, hh2, hh3⟩
            rcases List.mem_cons.mp hh2 with hh2 | hh2
            · exact absurd hh2 hja
            · exact ⟨hh1, hh2, hh3⟩
      · have h1 : decide (s.i = i0 ∧ s.j = j0) = false :=
          decide_eq_false fun hh => hii (hsi.symm.trans hh.1)
        rw [h1]
        simp only [Bool.false_eq_true, if_false, Nat.add_zero]
        rw [if_neg fun hh => hii hh.1, if_neg fun hh => hii hh.1]

theorem countP_flatMap_connection (ps : List Vec3) (i0 j0 : ℕ)
    (L : List ℕ) (hnd : L.Nodup) :
    ((L.flatMap fun i =>
        (List.range ps.length).filterMap fun j => connectionAt ps i j).countP
        fun s => decide (s.i = i0 ∧ s.j = j0))
      = if i0 ∈ L ∧ j0 < ps.length ∧ (connectionAt ps i0 j0).isSome = true
        then 1 else 0 := by
  induction L with
  | nil => simp
  | cons a t ih =>
    have ihv := ih hnd.of_cons
    have hnotin : a ∉ t := (List.nodup_cons.mp hnd).1
    rw [List.flatMap_cons, List.countP_append, ihv,
      countP_filterMap_connection ps a i0 j0 _ (List.nodup_range _)]
    by_cases hai : a = i0
    · subst hai
      have h2 : ¬(a ∈ t ∧ j0 < ps.length ∧
          (connectionAt ps a j0).isSome = true) := by
        rintro ⟨hmem, -, -⟩
        exact hnotin hmem
      rw [if_neg h2]
      by_cases hc : j0 < ps.length ∧ (connectionAt ps a j0).isSome = true
      · rw [if_pos ⟨rfl, List.mem_range.mpr hc.1, hc.2⟩,
          if_pos ⟨List.mem_cons_self _ _, hc⟩]
      · have h3 : ¬(a = a ∧ j0 ∈ List.range ps.length ∧
            (connectionAt ps a j0).isSome = true) := by
          rintro ⟨-, hmem, hsome⟩
          exact hc ⟨List.mem_range.mp hmem, hsome⟩
        have h4 : ¬(a ∈ a :: t ∧ j0 < ps.length ∧
            (connectionAt ps a j0).isSome = true) := by
          rintro ⟨-, hrest⟩
          exact hc hrest
        rw [if_neg h3, if_neg h4]
    · have h3 : ¬(a = i0 ∧ j0 ∈ List.range ps.length ∧
          (connectionAt ps a j0).isSome = true) := fun hh => hai hh.1
      rw [if_neg h3, Nat.zero_add]
      refine if_congr ?_ rfl rfl
      constructor
      · rintro ⟨h1, h2⟩
        exact ⟨List.mem_cons_of_mem _ h1, h2⟩
      · rintro ⟨h1, h2⟩
        rcases List.mem_cons.mp h1 with h1 | h1
        · exact absurd h1.symm hai
        · exact ⟨h1, h2⟩

theorem countP_updateConnections (prev : List Segment) (ps : List Vec3)
    (i0 j0 : ℕ) :
    ((updateConnections prev ps).countP
        fun s => decide (s.i = i0 ∧ s.j = j0))
      = if i0 < j0 ∧ j0 < ps.length ∧
            dist3 (ps.getD i0 ⟨0, 0, 0⟩) (ps.getD j0 ⟨0, 0, 0⟩) < 3
        then 1 else 0 := by
  rw [show updateConnections prev ps =
      (List.range ps.length).flatMap fun i =>
        (List.range ps.length).filterMap fun j => connectionAt ps i j from rfl,
    countP_flatMap_connection ps i0 j0 _ (List.nodup_range _)]
  refine if_congr ?_ rfl rfl
  rw [List.mem_range, connectionAt_isSome]
  constructor
  · rintro ⟨h1, h2, h3, h4⟩
    exact ⟨h3, h2, h4⟩
  · rintro ⟨h1, h2, h3⟩
    exact ⟨by omega, h2, h1, h3⟩

theorem mem_updateConnections {prev : List Segment} {ps : List Vec3}
    {s : Segment} (h : s ∈ updateConnections prev ps) :
    ∃ i j, connectionAt ps i j = some s := by
  simp only [updateConnections, List.mem_flatMap, List.mem_filterMap,
    List.mem_range] at h
  obtain ⟨i, -, j, -, hj⟩ := h
  exact ⟨i, j, hj⟩

theorem revealStep_foldl (l : List Bool) (v : Bool) :
    l.foldl revealStep v = (v || l.any id) := by
  induction l generalizing v with
  | nil => simp
  | cons b t ih =>
    simp only [List.foldl_cons, List.any_cons, ih, revealStep, id]
    cases b <;> cases v <;> simp

theorem processBatch_eq_last_qualifying (active : String)
    (es : List SectionEntry) :
    processBatch active es =
      ((es.reverse.find? sectionQualifies).map SectionEntry.targetId).getD
        active := by
  induction es generalizing active with
  | nil => rfl
  | cons e t ih =>
    show processBatch (sectionStep active e) t = _
    rw [ih]
    simp only [List.reverse_cons, List.find?_append]
    cases ht : t.reverse.find? sectionQualifies with
    | some x => simp [Option.or]
    | none =>
      cases hq : sectionQualifies e <;>
        simp [Option.or, sectionStep, hq, List.find?, ht]

theorem statStep_pos (value : ℤ) : 1 ≤ statStep value := le_max_left _ _

theorem counterTick_stopped {value : ℤ} {s : CounterState}
    (h : s.running = false) : counterTick value s = s := by
  simp [counterTick, h]

theorem counterTick_fixed {value : ℤ} {s : CounterState}
    (h : s.running = false) (m : ℕ) : (counterTick value)^[m] s = s := by
  induction m with
  | zero => rfl
  | succ n ih =>
    rw [Function.iterate_succ_apply, counterTick_stopped h, ih]

theorem counter_invariant (value : ℤ) (hv : 0 < value) (n : ℕ) :
    (((counterTick value)^[n] counterInit).running = true →
        ((counterTick value)^[n] counterInit).start = n * statStep value ∧
        ((counterTick value)^[n] counterInit).count =
          ((counterTick value)^[n] counterInit).start ∧
        ((counterTick value)^[n] counterInit).count < value) ∧
    (((counterTick value)^[n] counterInit).running = false →
        ((counterTick value)^[n] counterInit).count = value) := by
  induction n with
  | zero =>
    simp [counterInit, hv]
  | succ n ih =>
    rw [Function.iterate_succ_apply']
    cases hr : ((counterTick value)^[n] counterInit).running with
    | false =>
      rw [counterTick_stopped hr]
      exact ⟨fun h => absurd h (by simp [hr]), ih.2⟩
    | true =>
      obtain ⟨hstart, hcount, hlt⟩ := ih.1 hr
      by_cases hge : ((counterTick value)^[n] counterInit).start +
          statStep value ≥ value
      · refine ⟨fun h => ?_, fun _ => ?_⟩
        · exfalso
          revert h
          simp [counterTick, hr, hge]
        · simp [counterTick, hr, hge]
      · refine ⟨fun _ => ⟨?_, ?_, ?_⟩, fun h => ?_⟩
        · simp only [counterTick, hr, if_true, if_neg hge]
          rw [hstart]
          push_cast
          ring
        · simp [counterTick, hr, hge]
        · simp only [counterTick, hr, if_true, if_neg hge]
          omega
        · exfalso
          revert h
          simp [counterTick, hr, hge]

theorem counter_stops (value : ℤ) (hv : 0 < value) :
    ((counterTick value)^[value.toNat] counterInit).running = false ∧
    ((counterTick value)^[value.toNat] counterInit).count = value := by
  have hstop : ((counterTick value)^[value.toNat] counterInit).running
      = false := by
    cases hr : ((counterTick value)^[value.toNat] counterInit).running
    · rfl
    · exfalso
      obtain ⟨hstart, hcount, hlt⟩ :=
        (counter_invariant value hv value.toNat).1 hr
      have h1 : (value.toNat : ℤ) = value := Int.toNat_of_nonneg hv.le
      have h2 : (value.toNat : ℤ) * 1 ≤ (value.toNat : ℤ) * statStep value :=
        mul_le_mul_of_nonneg_left (statStep_pos value) (Int.natCast_nonneg _)
      linarith [hstart, hcount, hlt]
  exact ⟨hstop, (counter_invariant value hv value.toNat).2 hstop⟩
theorem processBatch_mem (S : List String) :
    ∀ (es : List SectionEntry) (active : String), active ∈ S →
      (∀ e ∈ es, e.targetId ∈ S) → processBatch active es ∈ S := by
  intro es
  induction es with
  | nil =>
    intro active ha _
    exact ha
  | cons e t ih =>
    intro active ha he
    show processBatch (sectionStep active e) t ∈ S
    refine ih _ ?_ fun x hx => he x (List.mem_cons_of_mem _ hx)
    unfold sectionStep
    split
    · exact he e (List.mem_cons_self _ _)
    · exact ha

/-- C1, counterexample to the claim as stated: the orbiting-node rule does
not compute the node transform as a pure function of elapsed time and the
node's static parameters alone.  Two node states with identical elapsed
time and identical static parameters but different accumulated mesh
rotation (`node.mesh.rotation.x += 0.02` retains state across frames) are
mapped to different transforms. -/
theorem C1_node_rule_not_time_pure :
    nodeFrame 0 ⟨2, 0, 1, 1⟩ ⟨0, 2, 0, 0, 0, 0⟩ ≠
      nodeFrame 0 ⟨2, 0, 1, 1⟩ ⟨0, 2, 0, 0, 1, 0⟩ := by
  intro h
  have h2 := congrArg NodeState.rotX h
  simp only [nodeFrame] at h2
  norm_num at h2

/-- C1 (amended): every animation rule computes its object's transform
from the elapsed time, the object's static parameters and that object's
own accumulated state only — node `i` of the next frame depends only on
node `i` of the current frame, a shape only on itself, and the
elapsed-time-driven vertical oscillations are pure in time and static
parameters — while the ConnectorSet alone reads the current positions of
all nodes. -/
theorem C1_per_object_rule_locality (elapsed : ℝ) (st st2 : SceneState)
    (i : ℕ) (hn : st.nodes[i]? = st2.nodes[i]?) :
    ((sceneFrame elapsed st).nodes[i]? = (sceneFrame elapsed st2).nodes[i]?) ∧
    (∀ k : ℕ, st.shapes[k]? = st2.shapes[k]? →
        (sceneFrame elapsed st).shapes[k]? =
          (sceneFrame elapsed st2).shapes[k]?) ∧
    ((sceneFrame elapsed st).connections =
        if ⌊elapsed * 10⌋ % 3 = 0 then
          updateConnections st.connections
            ((sceneFrame elapsed st).nodes.map fun q => nodePos q.2)
        else st.connections) ∧
    (∀ p s, (nodeFrame elapsed p s).posY =
        p.yOffset + Real.sin (elapsed * p.ySpeed) * 0.5) ∧
    (∀ p s, (shapeFrame elapsed p s).posY =
        p.initialPosY + Real.sin (elapsed * p.floatSpeed) * p.floatAmp) := by
  refine ⟨?_, ?_, rfl, fun p s => rfl, fun p s => rfl⟩
  · show (st.nodes.map _)[i]? = (st2.nodes.map _)[i]?
    rw [List.getElem?_map, List.getElem?_map, hn]
  · intro k hk
    show (st.shapes.map _)[k]? = (st2.shapes.map _)[k]?
    rw [List.getElem?_map, List.getElem?_map, hk]

/-- C2: after any ConnectorSet recomputation the segment list holds
exactly one segment for each index pair `i < j` of nodes at distance
strictly below 3 and none for any other pair; every emitted segment's
opacity is `0.15 * (1 - dist / 3)`, which is strictly decreasing in the
pair's distance; and the previous segment list is discarded without being
read. -/
theorem C2_connector_recomputation (prev : List Segment) (ps : List Vec3)
    (i j : ℕ) (hij : i < j) (hj : j < ps.length) :
    (((updateConnections prev ps).countP
        fun s => decide (s.i = i ∧ s.j = j))
      = if dist3 (ps.getD i ⟨0, 0, 0⟩) (ps.getD j ⟨0, 0, 0⟩) < 3
        then 1 else 0) ∧
    (∀ i2 j2 : ℕ, ¬(i2 < j2 ∧ j2 < ps.length) →
        ((updateConnections prev ps).countP
          fun s => decide (s.i = i2 ∧ s.j = j2)) = 0) ∧
    (∀ s ∈ updateConnections prev ps,
        dist3 s.fromPos s.toPos < 3 ∧
        s.opacity = 0.15 * (1 - dist3 s.fromPos s.toPos / 3)) ∧
    (∀ s ∈ updateConnections prev ps, ∀ s2 ∈ updateConnections prev ps,
        dist3 s.fromPos s.toPos < dist3 s2.fromPos s2.toPos →
        s2.opacity < s.opacity) ∧
    updateConnections prev ps = updateConnections [] ps := by
  refine ⟨?_, ?_, ?_, ?_, rfl⟩
  · rw [countP_updateConnections]
    refine if_congr ?_ rfl rfl
    constructor
    · rintro ⟨-, -, hd⟩
      exact hd
    · intro hd
      exact ⟨hij, hj, hd⟩
  · intro i2 j2 hnot
    rw [countP_updateConnections]
    exact if_neg fun hh => hnot ⟨hh.1, hh.2.1⟩
  · intro s hs
    obtain ⟨i2, j2, hc⟩ := mem_updateConnections hs
    obtain ⟨-, -, -, -, -, hd, hop⟩ := connectionAt_spec hc
    exact ⟨hd, hop⟩
  · intro s hs s2 hs2 hlt
    obtain ⟨i1, j1, hc1⟩ := mem_updateConnections hs
    obtain ⟨-, -, -, -, -, -, hop1⟩ := connectionAt_spec hc1
    obtain ⟨i2, j2, hc2⟩ := mem_updateConnections hs2
    obtain ⟨-, -, -, -, -, -, hop2⟩ := connectionAt_spec hc2
    rw [hop1, hop2]
    linarith

/-- C3: for every positive integer target the stat counter never displays
more than the target, the display equals the target after at most
`target` ticks with the interval cleared, and every later tick leaves the
state unchanged. -/
theorem C3_stat_counter_reaches_target (value : ℤ) (hv : 0 < value) :
    (∀ n : ℕ, ((counterTick value)^[n] counterInit).count ≤ value) ∧
    ((counterTick value)^[value.toNat] counterInit).count = value ∧
    ((counterTick value)^[value.toNat] counterInit).running = false ∧
    (∀ m : ℕ, (counterTick value)^[value.toNat + m] counterInit =
        (counterTick value)^[value.toNat] counterInit) := by
  obtain ⟨hstop, hcount⟩ := counter_stops value hv
  refine ⟨?_, hcount, hstop, ?_⟩
  · intro n
    cases hr : ((counterTick value)^[n] counterInit).running
    · exact le_of_eq ((counter_invariant value hv n).2 hr)
    · exact ((counter_invariant value hv n).1 hr).2.2.le
  · intro m
    rw [Nat.add_comm, Function.iterate_add_apply, counterTick_fixed hstop]

/-- C4: a submit with all three fields non-empty whose relay outcome is a
falsy `success` or a thrown error sets sending then error, issues one
request, schedules the 4000 ms revert to idle, and leaves the form data
unchanged along the whole error path, including across the revert. -/
theorem C4_error_path_preserves_fields (d : ContactData)
    (outcome : RelayOutcome) (h1 : d.name ≠ "") (h2 : d.email ≠ "")
    (h3 : d.message ≠ "") (ho : outcome ≠ RelayOutcome.ok) :
    (handleSubmit d outcome).statusTrace = [.sending, .error] ∧
    (handleSubmit d outcome).data = d ∧
    (handleSubmit d outcome).requests = 1 ∧
    (handleSubmit d outcome).revertDelayMs = some 4000 ∧
    revertFire .error (handleSubmit d outcome).data = (.idle, d) := by
  have hv : ¬(d.name = "" ∨ d.email = "" ∨ d.message = "") := by
    tauto
  cases outcome with
  | ok => exact absurd rfl ho
  | rejected =>
    unfold handleSubmit
    rw [if_neg hv]
    exact ⟨rfl, rfl, rfl, rfl, rfl⟩
  | failed =>
    unfold handleSubmit
    rw [if_neg hv]
    exact ⟨rfl, rfl, rfl, rfl, rfl⟩

/-- C5: a submit attempt with any of the three fields empty leaves the
handler before any status write or request: the result carries an empty
status trace (so a form idle before the attempt is idle after it), zero
outbound requests, unchanged data and no scheduled revert. -/
theorem C5_empty_field_blocks_submit (d : ContactData)
    (outcome : RelayOutcome)
    (h : d.name = "" ∨ d.email = "" ∨ d.message = "") :
    handleSubmit d outcome = ⟨[], d, 0, none⟩ ∧
    finalStatus .idle (handleSubmit d outcome) = .idle := by
  have h1 : handleSubmit d outcome = ⟨[], d, 0, none⟩ := by
    unfold handleSubmit
    rw [if_pos h]
  refine ⟨h1, ?_⟩
  rw [h1]
  rfl

/-- C6: for every DisplayMode and any number of connector lines created
by the initial synchronous animation frame, mounting the scene into a
fresh environment and then unmounting restores that environment exactly:
no listener registered by the mount stays registered and no graphics
resource allocated by the mount stays retained. -/
theorem C6_mount_unmount_roundtrip (mode : DisplayMode) (k : ℕ) :
    unmountScene (mountScene mode k emptyEnv) = emptyEnv := by
  cases mode <;> rfl

/-- C7, counterexample to the claim as stated: an entry whose
intersection ratio is exactly 30% satisfies "at least 30% of it is within
the viewport" but is not made current, because the callback requires the
ratio to exceed 0.3 strictly. -/
theorem C7_exact_threshold_not_current :
    processBatch initialActiveSection [⟨"about", true, 3 / 10⟩] =
      initialActiveSection ∧ initialActiveSection ≠ "about" := by
  constructor
  · have hq : sectionQualifies ⟨"about", true, (3 : ℚ) / 10⟩ = false := by
      simp [sectionQualifies]
    show sectionStep initialActiveSection ⟨"about", true, 3 / 10⟩ =
      initialActiveSection
    simp [sectionStep, hq]
  · decide

/-- C7 (amended): a section qualifies as current exactly when its entry
intersects with ratio strictly greater than 30%, and the section reported
after one observation batch is the target id of the last qualifying entry
in the batch's enumeration order (the incoming value when no entry
qualifies). -/
theorem C7_last_dispatched_qualifying_wins (active : String)
    (es : List SectionEntry) :
    processBatch active es =
      ((es.reverse.find? sectionQualifies).map SectionEntry.targetId).getD
        active ∧
    (∀ e : SectionEntry, sectionQualifies e = true ↔
        e.isIntersecting = true ∧ (3 : ℚ) / 10 < e.ratio) := by
  refine ⟨processBatch_eq_last_qualifying active es, fun e => ?_⟩
  simp [sectionQualifies]

/-- C8: over any sequence of intersection events, the reveal flag after
any prefix equals "some event of the prefix intersected", so it flips
false to true exactly once, at the first qualifying event; once true it
never reverts, and any event arriving after the flag is set leaves it
unchanged. -/
theorem C8_reveal_flag_one_way (events : List Bool) (k : ℕ) :
    ((events.take k).foldl revealStep false = (events.take k).any id) ∧
    ((events.take k).foldl revealStep false = true →
        events.foldl revealStep false = true) ∧
    (∀ e : Bool, revealStep true e = true) := by
  refine ⟨(revealStep_foldl _ false).trans (Bool.false_or _), ?_,
    fun e => by cases e <;> rfl⟩
  intro h
  rw [← List.take_append_drop k events, List.foldl_append, h,
    revealStep_foldl]
  rfl

/-- C9: for every integer target, including zero and negative ones, the
step is at least 1, the accumulator strictly increases on every tick
while the interval runs, the interval is cleared after at most
`max 1 target` ticks, and all later ticks leave the state unchanged. -/
theorem C9_stat_counter_terminates (value : ℤ) :
    1 ≤ statStep value ∧
    (∀ s : CounterState, s.running = true →
        s.start < (counterTick value s).start) ∧
    ((counterTick value)^[(max 1 value).toNat] counterInit).running
      = false ∧
    (∀ m : ℕ, (counterTick value)^[(max 1 value).toNat + m] counterInit =
        (counterTick value)^[(max 1 value).toNat] counterInit) := by
  have hstep := statStep_pos value
  have hstop : ((counterTick value)^[(max 1 value).toNat]
      counterInit).running = false := by
    rcases le_or_lt value 0 with hv | hv
    · have hmax : (max 1 value).toNat = 1 := by
        rw [max_eq_left (by omega)]
        rfl
      rw [hmax]
      show (counterTick value counterInit).running = false
      have hc : counterInit.start + statStep value ≥ value := by
        unfold counterInit
        simp only
        omega
      unfold counterTick
      rw [if_pos (show counterInit.running = true from rfl), if_pos hc]
    · have hmax : (max 1 value).toNat = value.toNat := by
        rw [max_eq_right (by omega)]
      rw [hmax]
      exact (counter_stops value hv).1
  refine ⟨hstep, ?_, hstop, ?_⟩
  · intro s h
    unfold counterTick
    rw [if_pos h]
    rcases le_or_lt value (s.start + statStep value) with hge | hlt
    · rw [if_pos hge]
      show s.start < s.start + statStep value
      omega
    · rw [if_neg (by omega)]
      show s.start < s.start + statStep value
      omega
  · intro m
    rw [Nat.add_comm, Function.iterate_add_apply, counterTick_fixed hstop]

/-- C10: the active section label starts as home, which is one of the six
observed section ids, and processing any batch whose entries all come
from observed sections keeps the label inside that six-element set. -/
theorem C10_active_section_stays_in_ids (active : String)
    (es : List SectionEntry) (ha : active ∈ sectionIds)
    (he : ∀ e ∈ es, e.targetId ∈ sectionIds) :
    initialActiveSection ∈ sectionIds ∧
    processBatch active es ∈ sectionIds := by
  refine ⟨by decide, processBatch_mem sectionIds es active ha he⟩

/-- Witness for C1 (amended): the locality theorem applied at elapsed
time 0 to one concrete one-node scene. -/
theorem C1_per_object_rule_locality_witness :
    ((⟨[(⟨2, 0, 1, 1⟩, ⟨0, 2, 0, 0, 0, 0⟩)], [], []⟩ : SceneState).nodes[0]?
      = (⟨[(⟨2, 0, 1, 1⟩, ⟨0, 2, 0, 0, 0, 0⟩)], [], []⟩ :
          SceneState).nodes[0]?) ∧
    ((sceneFrame 0
        ⟨[(⟨2, 0, 1, 1⟩, ⟨0, 2, 0, 0, 0, 0⟩)], [], []⟩).nodes[0]? =
      (sceneFrame 0
        ⟨[(⟨2, 0, 1, 1⟩, ⟨0, 2, 0, 0, 0, 0⟩)], [], []⟩).nodes[0]?) :=
  ⟨rfl, (C1_per_object_rule_locality 0
    ⟨[(⟨2, 0, 1, 1⟩, ⟨0, 2, 0, 0, 0, 0⟩)], [], []⟩
    ⟨[(⟨2, 0, 1, 1⟩, ⟨0, 2, 0, 0, 0, 0⟩)], [], []⟩ 0 rfl).1⟩

/-- Witness for C2: two concrete nodes at distance 1 produce exactly one
segment for the pair (0, 1). -/
theorem C2_connector_recomputation_witness :
    (0 : ℕ) < 1 ∧ 1 < ([⟨0, 0, 0⟩, ⟨1, 0, 0⟩] : List Vec3).length ∧
    ((updateConnections [] [⟨0, 0, 0⟩, ⟨1, 0, 0⟩]).countP
        fun s => decide (s.i = 0 ∧ s.j = 1)) = 1 := by
  have hlen : (1 : ℕ) < ([⟨0, 0, 0⟩, ⟨1, 0, 0⟩] : List Vec3).length := by
    simp
  refine ⟨Nat.one_pos, hlen, ?_⟩
  have h := (C2_connector_recomputation [] [⟨0, 0, 0⟩, ⟨1, 0, 0⟩] 0 1
    Nat.one_pos hlen).1
  rw [h]
  have hd : dist3 (([⟨0, 0, 0⟩, ⟨1, 0, 0⟩] : List Vec3).getD 0 ⟨0, 0, 0⟩)
      (([⟨0, 0, 0⟩, ⟨1, 0, 0⟩] : List Vec3).getD 1 ⟨0, 0, 0⟩) < 3 := by
    show dist3 ⟨0, 0, 0⟩ ⟨1, 0, 0⟩ < 3
    have harg : ((⟨0, 0, 0⟩ : Vec3).x - (⟨1, 0, 0⟩ : Vec3).x) ^ 2 +
        ((⟨0, 0, 0⟩ : Vec3).y - (⟨1, 0, 0⟩ : Vec3).y) ^ 2 +
        ((⟨0, 0, 0⟩ : Vec3).z - (⟨1, 0, 0⟩ : Vec3).z) ^ 2 = 1 := by
      norm_num
    unfold dist3
    rw [harg, Real.sqrt_one]
    norm_num
  rw [if_pos hd]

/-- Witness for C3: the counter for target 100 lands exactly on 100 with
the interval cleared. -/
theorem C3_stat_counter_reaches_target_witness :
    (0 : ℤ) < 100 ∧
    ((counterTick 100)^[(100 : ℤ).toNat] counterInit).count = 100 ∧
    ((counterTick 100)^[(100 : ℤ).toNat] counterInit).running = false :=
  ⟨by norm_num, (C3_stat_counter_reaches_target 100 (by norm_num)).2.1,
    (C3_stat_counter_reaches_target 100 (by norm_num)).2.2.1⟩

/-- Witness for C4: a concrete filled form with a rejected relay response
keeps its data and reports the error trace. -/
theorem C4_error_path_preserves_fields_witness :
    (⟨"Ada", "ada@example.com", "Hello"⟩ : ContactData).name ≠ "" ∧
    (⟨"Ada", "ada@example.com", "Hello"⟩ : ContactData).email ≠ "" ∧
    (⟨"Ada", "ada@example.com", "Hello"⟩ : ContactData).message ≠ "" ∧
    RelayOutcome.rejected ≠ RelayOutcome.ok ∧
    (handleSubmit ⟨"Ada", "ada@example.com", "Hello"⟩
        RelayOutcome.rejected).statusTrace = [.sending, .error] ∧
    (handleSubmit ⟨"Ada", "ada@example.com", "Hello"⟩
        RelayOutcome.rejected).data = ⟨"Ada", "ada@example.com", "Hello"⟩ :=
  ⟨by decide, by decide, by decide, by decide,
    (C4_error_path_preserves_fields ⟨"Ada", "ada@example.com", "Hello"⟩
      RelayOutcome.rejected (by decide) (by decide) (by decide)
      (by decide)).1,
    (C4_error_path_preserves_fields ⟨"Ada", "ada@example.com", "Hello"⟩
      RelayOutcome.rejected (by decide) (by decide) (by decide)
      (by decide)).2.1⟩

/-- Witness for C5: a concrete submission with an empty name field issues
no request and changes nothing. -/
theorem C5_empty_field_blocks_submit_witness :
    ((⟨"", "ada@example.com", "Hello"⟩ : ContactData).name = "" ∨
      (⟨"", "ada@example.com", "Hello"⟩ : ContactData).email = "" ∨
      (⟨"", "ada@example.com", "Hello"⟩ : ContactData).message = "") ∧
    handleSubmit ⟨"", "ada@example.com", "Hello"⟩ RelayOutcome.ok =
      ⟨[], ⟨"", "ada@example.com", "Hello"⟩, 0, none⟩ :=
  ⟨Or.inl rfl,
    (C5_empty_field_blocks_submit ⟨"", "ada@example.com", "Hello"⟩
      RelayOutcome.ok (Or.inl rfl)).1⟩

/-- Witness for C10: a concrete batch from an observed section keeps the
label inside the six ids. -/
theorem C10_active_section_stays_in_ids_witness :
    "home" ∈ sectionIds ∧
    (∀ e ∈ ([⟨"skills", true, 1 / 2⟩] : List SectionEntry),
        e.targetId ∈ sectionIds) ∧
    processBatch "home" [⟨"skills", true, 1 / 2⟩] ∈ sectionIds :=
  ⟨by decide, by decide,
    (C10_active_section_stays_in_ids "home" [⟨"skills", true, 1 / 2⟩]
      (by decide) (by decide)).2⟩

end Portfolio
